import Mathlib

/-!
Verification development for the AniXLinks playlist aggregator
(`AniXLinks.py`).  The pipeline's pure core — parsing, deduplication,
link-probe fallback logic, routing, filtering and the exit decision — is
shallowly embedded below; network I/O is represented by an explicit
response oracle, and the wall clock by an explicit timestamp argument.
-/

namespace AniX

/-! ## Python string primitives

Renderings of the Python `str` operations the collector uses, over the
character lists of Lean strings.  Whitespace is Python's ASCII whitespace
class (the inputs the program feeds these functions are ASCII protocol
text; non-ASCII whitespace categories are not modelled). -/

/-- Python's ASCII whitespace class, as matched by `str.strip` and `\s`. -/
def pyIsSpace (c : Char) : Bool :=
  c = ' ' || c = '\t' || c = '\n' || c = '\r' || c = '\x0b' || c = '\x0c'

/-- Python `str.strip()`: drop leading and trailing whitespace. -/
def pyStrip (s : String) : String :=
  String.mk (((s.data.dropWhile pyIsSpace).reverse.dropWhile pyIsSpace).reverse)

/-- Python `str.startswith(p)`. -/
def pyStartsWith (s p : String) : Bool :=
  p.data.isPrefixOf s.data

/-- Python `str.endswith(p)`. -/
def pyEndsWith (s p : String) : Bool :=
  p.data.isSuffixOf s.data

/-- Python `str.lower()` (ASCII case folding). -/
def pyLower (s : String) : String :=
  String.mk (s.data.map Char.toLower)

/-- Does `needle` occur as a contiguous run of `hay`?  Python `needle in hay`. -/
def listHasRun (needle : List Char) : List Char → Bool
  | [] => needle.isEmpty
  | c :: rest => needle.isPrefixOf (c :: rest) || listHasRun needle rest

/-- Python `sub in s` for strings. -/
def pyContains (s sub : String) : Bool :=
  listHasRun sub.data s.data

/-- Python `s[:n]` (first `n` characters). -/
def pyTake (s : String) (n : Nat) : String :=
  String.mk (s.data.take n)

/-- Auxiliary for `re.sub(r'\s+', ' ', ·)`: the flag records whether the
previous character was part of a whitespace run already replaced. -/
def collapseWsAux : List Char → Bool → List Char
  | [], _ => []
  | c :: rest, prevSpace =>
    if pyIsSpace c then
      if prevSpace then collapseWsAux rest true
      else ' ' :: collapseWsAux rest true
    else c :: collapseWsAux rest false

/-- Python `re.sub(r'\s+', ' ', s)`: each maximal whitespace run becomes a
single space. -/
def collapseWs (s : String) : String :=
  String.mk (collapseWsAux s.data false)

/-- Python `re.search(r',(.+)$', line)` restricted to stripped lines (no
trailing newline, so `$` is end-of-string): the capture of the first comma
whose remaining suffix is non-empty and free of newlines, scanning later
commas when a newline blocks `.+$`. -/
def commaCaptureAux : List Char → Option (List Char)
  | [] => none
  | c :: rest =>
    if c = ',' ∧ rest ≠ [] ∧ '\n' ∉ rest then some rest
    else commaCaptureAux rest

/-- The `,(.+)$` capture of `re.search` on a stripped metadata line. -/
def commaCapture (s : String) : Option String :=
  (commaCaptureAux s.data).map String.mk

/-- Characters of `l` up to (excluding) the first `"`; `none` when `l` has
no `"` — the `([^"]*)"` tail of the attribute regexes. -/
def takeToQuote : List Char → Option (List Char)
  | [] => none
  | c :: rest =>
    if c = '"' then some []
    else (takeToQuote rest).map (c :: ·)

/-- Python `re.search(r'KEY="([^"]*)"', line)` for a literal prefix
`KEY="`: the capture at the first occurrence of the prefix, requiring a
closing quote (if the first occurrence has none, no occurrence has one, so
the regex fails everywhere). -/
def searchCapture (pre : List Char) : List Char → Option (List Char)
  | [] => none
  | c :: rest =>
    if pre.isPrefixOf (c :: rest) then takeToQuote ((c :: rest).drop pre.length)
    else searchCapture pre rest

/-! ## MD5 (RFC 1321) and channel identity

`generate_channel_id` is `hashlib.md5(f"{name}_{url}".encode('utf-8')).hexdigest()[:8]`.
The digest is computed over bytes as naturals, with 32-bit words kept
below `2^32` by explicit reduction. -/

/-- UTF-8 encoding of one character, as a list of byte values. -/
def utf8Char (c : Char) : List Nat :=
  let n := c.toNat
  if n < 128 then [n]
  else if n < 2048 then [192 + n / 64, 128 + n % 64]
  else if n < 65536 then [224 + n / 4096, 128 + (n / 64) % 64, 128 + n % 64]
  else [240 + n / 262144, 128 + (n / 4096) % 64, 128 + (n / 64) % 64, 128 + n % 64]

/-- Python `s.encode('utf-8')` as a list of byte values. -/
def utf8Encode (s : String) : List Nat :=
  s.data.flatMap utf8Char

/-- The 64 MD5 sine-table constants `K[i]`. -/
def md5K : List Nat :=
  [0xd76aa478, 0xe8c7b756, 0x242070db, 0xc1bdceee,
   0xf57c0faf, 0x4787c62a, 0xa8304613, 0xfd469501,
   0x698098d8, 0x8b44f7af, 0xffff5bb1, 0x895cd7be,
   0x6b901122, 0xfd987193, 0xa679438e, 0x49b40821,
   0xf61e2562, 0xc040b340, 0x265e5a51, 0xe9b6c7aa,
   0xd62f105d, 0x02441453, 0xd8a1e681, 0xe7d3fbc8,
   0x21e1cde6, 0xc33707d6, 0xf4d50d87, 0x455a14ed,
   0xa9e3e905, 0xfcefa3f8, 0x676f02d9, 0x8d2a4c8a,
   0xfffa3942, 0x8771f681, 0x6d9d6122, 0xfde5380c,
   0xa4beea44, 0x4bdecfa9, 0xf6bb4b60, 0xbebfbc70,
   0x289b7ec6, 0xeaa127fa, 0xd4ef3085, 0x04881d05,
   0xd9d4d039, 0xe6db99e5, 0x1fa27cf8, 0xc4ac5665,
   0xf4292244, 0x432aff97, 0xab9423a7, 0xfc93a039,
   0x655b59c3, 0x8f0ccc92, 0xffeff47d, 0x85845dd1,
   0x6fa87e4f, 0xfe2ce6e0, 0xa3014314, 0x4e0811a1,
   0xf7537e82, 0xbd3af235, 0x2ad7d2bb, 0xeb86d391]

/-- The 64 MD5 per-round left-rotation amounts `s[i]`. -/
def md5S : List Nat :=
  [7, 12, 17, 22, 7, 12, 17, 22, 7, 12, 17, 22, 7, 12, 17, 22,
   5, 9, 14, 20, 5, 9, 14, 20, 5, 9, 14, 20, 5, 9, 14, 20,
   4, 11, 16, 23, 4, 11, 16, 23, 4, 11, 16, 23, 4, 11, 16, 23,
   6, 10, 15, 21, 6, 10, 15, 21, 6, 10, 15, 21, 6, 10, 15, 21]

/-- Left rotation of a 32-bit word. -/
def leftrot32 (x s : Nat) : Nat :=
  ((x <<< s) + (x >>> (32 - s))) % 4294967296

/-- The MD5 round mixing function, by round index `i`. -/
def md5F (i b c d : Nat) : Nat :=
  if i < 16 then (b &&& c) ||| ((b ^^^ 0xffffffff) &&& d)
  else if i < 32 then (d &&& b) ||| ((d ^^^ 0xffffffff) &&& c)
  else if i < 48 then b ^^^ c ^^^ d
  else c ^^^ (b ||| (d ^^^ 0xffffffff))

/-- The MD5 message-word schedule, by round index `i`. -/
def md5G (i : Nat) : Nat :=
  if i < 16 then i
  else if i < 32 then (5 * i + 1) % 16
  else if i < 48 then (3 * i + 5) % 16
  else (7 * i) % 16

/-- Group bytes four at a time into little-endian 32-bit words. -/
def bytesToWords : List Nat → List Nat
  | b0 :: b1 :: b2 :: b3 :: rest =>
    (b0 + 256 * b1 + 65536 * b2 + 16777216 * b3) :: bytesToWords rest
  | _ => []

/-- `n` as `k` little-endian bytes. -/
def toLEBytes (n : Nat) : Nat → List Nat
  | 0 => []
  | k + 1 => (n % 256) :: toLEBytes (n / 256) k

/-- MD5 padding: a `0x80` byte, zeros to 56 mod 64, then the bit length
modulo `2^64` as eight little-endian bytes. -/
def md5Pad (msg : List Nat) : List Nat :=
  msg ++ [0x80] ++ List.replicate ((120 - (msg.length + 1) % 64) % 64) 0
      ++ toLEBytes ((msg.length * 8) % 18446744073709551616) 8

/-- Split a byte list into 64-byte blocks; the fuel argument (one unit per
block taken, at least one byte consumed each) only bounds the recursion. -/
def chunks64Aux : Nat → List Nat → List (List Nat)
  | 0, _ => []
  | fuel + 1, l =>
    match l with
    | [] => []
    | b :: rest => ((b :: rest).take 64) :: chunks64Aux fuel ((b :: rest).drop 64)

/-- Split a byte list into 64-byte blocks. -/
def chunks64 (l : List Nat) : List (List Nat) :=
  chunks64Aux l.length l

/-- One MD5 compression step over a block's 16 words `M`. -/
def md5ProcessBlock (h : Nat × Nat × Nat × Nat) (M : List Nat) : Nat × Nat × Nat × Nat :=
  let r := (List.range 64).foldl
    (fun (st : Nat × Nat × Nat × Nat) i =>
      let (A, B, C, D) := st
      let f := (md5F i B C D + A + md5K.getD i 0 + M.getD (md5G i) 0) % 4294967296
      (D, (B + leftrot32 f (md5S.getD i 0)) % 4294967296, B, C))
    h
  ((h.1 + r.1) % 4294967296, (h.2.1 + r.2.1) % 4294967296,
   (h.2.2.1 + r.2.2.1) % 4294967296, (h.2.2.2 + r.2.2.2) % 4294967296)

/-- The 16 MD5 digest bytes of a byte message. -/
def md5Bytes (msg : List Nat) : List Nat :=
  let d := (chunks64 (md5Pad msg)).foldl
    (fun h blk => md5ProcessBlock h (bytesToWords blk))
    (0x67452301, 0xefcdab89, 0x98badcfe, 0x10325476)
  toLEBytes d.1 4 ++ toLEBytes d.2.1 4 ++ toLEBytes d.2.2.1 4 ++ toLEBytes d.2.2.2 4

/-- Lowercase hex digit. -/
def hexDigit (n : Nat) : Char :=
  if n < 10 then Char.ofNat (48 + n) else Char.ofNat (87 + n)

/-- A byte as two lowercase hex characters. -/
def byteToHex (b : Nat) : List Char :=
  [hexDigit (b / 16), hexDigit (b % 16)]

/-- Python `hashlib.md5(bytes).hexdigest()`. -/
def md5Hex (msg : List Nat) : String :=
  String.mk ((md5Bytes msg).flatMap byteToHex)

/-- `generate_channel_id`: the first 8 hex characters of the MD5 of
`f"{name}_{url}"` encoded as UTF-8. -/
def generate_channel_id (name url : String) : String :=
  pyTake (md5Hex (utf8Encode (name ++ "_" ++ url))) 8

/-! ## Data model

`AniXLinksCollector`'s run-scoped mutable state: `self.channels`
(a `defaultdict(list)` keyed by group label, insertion-ordered) and
`self.seen_urls` (a set, modelled as the list of admitted URLs).  A channel
dict carries no `status` key until validation; exporters read it back with
default `"unknown"`, so the record field starts at `unknown`.  The
`added_date` wall-clock timestamp is passed in explicitly. -/

/-- The validation status of a channel record. -/
inductive CStatus where
  | unknown
  | active
  | inactive
  deriving DecidableEq, Repr

/-- One channel record, as the parsers build it. -/
structure Channel where
  id : String
  name : String
  logo : String
  group : String
  tvg_id : String
  source : String
  url : String
  added_date : String
  status : CStatus
  deriving DecidableEq, Repr

/-- The collector's aggregation state: the group-keyed store and the
seen-URL dedup set. -/
structure CollectorState where
  channels : List (String × List Channel)
  seen_urls : List String
  deriving DecidableEq, Repr

/-- `self.default_logo`. -/
def default_logo : String :=
  "https://via.placeholder.com/100x100.png?text=AniXLinks"

/-- The state after `process_sources` clears `channels` and `seen_urls`. -/
def initState : CollectorState := ⟨[], []⟩

/-- `self.channels[group].append(ch)` on a `defaultdict(list)`: a new group
key is appended at the end, an existing group's list grows at its tail. -/
def addToGroup (chs : List (String × List Channel)) (g : String) (c : Channel) :
    List (String × List Channel) :=
  match chs with
  | [] => [(g, [c])]
  | (g', cs) :: rest =>
    if g' = g then (g', cs ++ [c]) :: rest
    else (g', cs) :: addToGroup rest g c

/-- All records of a group-keyed store, in group-major order. -/
def flatChans (chs : List (String × List Channel)) : List Channel :=
  chs.flatMap (fun p => p.2)

/-- All records currently in the store. -/
def allChannels (st : CollectorState) : List Channel :=
  flatChans st.channels

/-! ## Playlist (M3U) parser -/

/-- Does a stripped line begin with one of the four recognised stream URL
schemes (`line.startswith(('http://', 'https://', 'rtmp://', 'rtsp://'))`)? -/
def isStreamLine (s : String) : Bool :=
  pyStartsWith s "http://" || pyStartsWith s "https://" ||
  pyStartsWith s "rtmp://" || pyStartsWith s "rtsp://"

/-- The `tvg-logo` attribute capture of an `#EXTINF:` line. -/
def extinfLogoAttr (l : String) : Option String :=
  (searchCapture ("tvg-logo=\"".data) l.data).map String.mk

/-- The `group-title` attribute capture. -/
def extinfGroupAttr (l : String) : Option String :=
  (searchCapture ("group-title=\"".data) l.data).map String.mk

/-- The `tvg-id` attribute capture. -/
def extinfIdAttr (l : String) : Option String :=
  (searchCapture ("tvg-id=\"".data) l.data).map String.mk

/-- The logo of an `#EXTINF:` line: the captured attribute unless absent or
empty, else the default placeholder. -/
def extinfLogo (l : String) : String :=
  match extinfLogoAttr l with
  | some cap => if cap = "" then default_logo else cap
  | none => default_logo

/-- The group of an `#EXTINF:` line: the captured attribute (kept even when
empty), else `"General"`. -/
def extinfGroup (l : String) : String :=
  (extinfGroupAttr l).getD "General"

/-- The display name of an `#EXTINF:` line: the `,(.+)$` capture stripped
(else `"Unknown Channel"`), then whitespace-collapsed and stripped. -/
def extinfName (l : String) : String :=
  let n0 := match commaCapture l with
    | some cs => pyStrip cs
    | none => "Unknown Channel"
  pyStrip (collapseWs n0)

/-- The pending channel dict built from a stripped `#EXTINF:` line (its
`url` key is filled in by the following stream line). -/
def mkExtinfChannel (l src now : String) : Channel :=
  let name := extinfName l
  { id := generate_channel_id name src, name := name, logo := extinfLogo l,
    group := extinfGroup l, tvg_id := (extinfIdAttr l).getD "",
    source := src, url := "", added_date := now, status := CStatus.unknown }

/-- The line loop of `parse_m3u_content`: `cc` is `current_channel`
(`none` for the empty dict). -/
def parseM3UGo (src now : String) :
    List String → Option Channel → CollectorState → CollectorState
  | [], _, st => st
  | line :: rest, cc, st =>
    let l := pyStrip line
    if pyStartsWith l "#EXTINF:" then
      parseM3UGo src now rest (some (mkExtinfChannel l src now)) st
    else if isStreamLine l then
      match cc with
      | some c =>
        if l ∈ st.seen_urls then parseM3UGo src now rest none st
        else
          parseM3UGo src now rest none
            ⟨addToGroup st.channels c.group { c with url := l }, l :: st.seen_urls⟩
      | none => parseM3UGo src now rest none st
  else parseM3UGo src now rest cc st

/-- `parse_m3u_content(lines, source_url)` acting on the collector state. -/
def parse_m3u_content (lines : List String) (src now : String)
    (st : CollectorState) : CollectorState :=
  parseM3UGo src now lines none st

/-! ## JSON-catalog parser

The JSON text itself is decoded by the standard library (external); the
parser is modelled on the decoded value.  Scalar field values are rendered
to strings where Python would interpolate them; the spec's catalogs carry
string fields, and container-valued fields are not modelled beyond a
marker rendering. -/

/-- Decimal digits of `n`, most significant first; the fuel argument only
bounds the recursion depth (one digit per division by ten). -/
def natDecimalAux : Nat → Nat → List Char
  | 0, _ => []
  | fuel + 1, n =>
    if n < 10 then [Char.ofNat (48 + n)]
    else natDecimalAux fuel (n / 10) ++ [Char.ofNat (48 + n % 10)]

/-- Python `str(n)` for a non-negative integer. -/
def natDecimal (n : Nat) : String :=
  String.mk (natDecimalAux (n + 1) n)

/-- Python `str(n)` for an integer. -/
def intDecimal (n : Int) : String :=
  if n < 0 then String.mk ('-' :: (natDecimal n.natAbs).data) else natDecimal n.natAbs

/-- A decoded JSON value. -/
inductive JValue where
  | jstr : String → JValue
  | jnum : Int → JValue
  | jbool : Bool → JValue
  | jnull : JValue
  | jarr : List JValue → JValue
  | jobj : List (String × JValue) → JValue

/-- Python `str()` of a scalar JSON value (containers abbreviated). -/
def pyStr : JValue → String
  | JValue.jstr s => s
  | JValue.jnum n => intDecimal n
  | JValue.jbool true => "True"
  | JValue.jbool false => "False"
  | JValue.jnull => "None"
  | JValue.jarr _ => "<list>"
  | JValue.jobj _ => "<dict>"

/-- Python truthiness of a JSON value (`if url:`). -/
def pyTruthy : JValue → Bool
  | JValue.jstr s => !s.isEmpty
  | JValue.jnum n => n != 0
  | JValue.jbool b => b
  | JValue.jnull => false
  | JValue.jarr l => !l.isEmpty
  | JValue.jobj l => !l.isEmpty

/-- `item.get('img', item.get('logo', self.default_logo))`. -/
def jsonLogoVal (fields : List (String × JValue)) : JValue :=
  (List.lookup "img" fields).getD ((List.lookup "logo" fields).getD (JValue.jstr default_logo))

/-- `item.get('type', item.get('category', 'General'))`. -/
def jsonGroupVal (fields : List (String × JValue)) : JValue :=
  (List.lookup "type" fields).getD ((List.lookup "category" fields).getD (JValue.jstr "General"))

/-- The channel dict `parse_json_content` builds from one catalog object:
its id hashes the display name with the item's own `url` value. -/
def mkJsonChannel (fields : List (String × JValue)) (src now : String) : Channel :=
  let name := pyStr ((List.lookup "name" fields).getD (JValue.jstr "Unknown Channel"))
  let url := pyStr ((List.lookup "url" fields).getD (JValue.jstr ""))
  { id := generate_channel_id name url, name := name,
    logo := pyStr (jsonLogoVal fields), group := pyStr (jsonGroupVal fields),
    tvg_id := "", source := src, url := url, added_date := now,
    status := CStatus.unknown }

/-- `parse_json_content(content, source_url)` on the decoded value: only a
top-level array contributes; each dict item with a `url` key whose value is
truthy and unseen is admitted. -/
def parse_json_content (data : JValue) (src now : String)
    (st : CollectorState) : CollectorState :=
  match data with
  | JValue.jarr items =>
    items.foldl
      (fun st item =>
        match item with
        | JValue.jobj fields =>
          match List.lookup "url" fields with
          | some urlVal =>
            if pyTruthy urlVal ∧ pyStr urlVal ∉ st.seen_urls then
              let ch := mkJsonChannel fields src now
              ⟨addToGroup st.channels ch.group ch, ch.url :: st.seen_urls⟩
            else st
          | none => st
        | _ => st)
      st
  | _ => st

/-! ## Ingestion runs -/

/-- One parser invocation of the ingestion phase. -/
inductive IngestOp where
  | m3u (lines : List String) (src now : String)
  | json (data : JValue) (src now : String)

/-- A sequence of parser invocations over the collector state. -/
def runIngest : List IngestOp → CollectorState → CollectorState
  | [], st => st
  | IngestOp.m3u lines src now :: ops, st =>
    runIngest ops (parse_m3u_content lines src now st)
  | IngestOp.json data src now :: ops, st =>
    runIngest ops (parse_json_content data src now st)

/-! ## Liveness probe

The HTTP transport is an oracle: `head` and `get` map a URL to `some
status` when the request completes with that status code, `none` when it
raises `requests.RequestException`.  With a fixed oracle the probe is a
pure function, which `self.url_status_cache` memoises by original URL;
memoising a pure function is semantically transparent, so the cache is not
threaded through. -/

/-- The response oracle for the two request shapes `check_link_active`
issues. -/
structure Network where
  head : String → Option Nat
  get : String → Option Nat

/-- Left-to-right, non-overlapping substitution of every occurrence of
`needle` (Python `str.replace`; the empty-needle case is never exercised
here, the needles below being scheme prefixes). -/
def replaceRunAux (needle repl : List Char) : Nat → List Char → List Char
  | 0, hay => hay
  | fuel + 1, hay =>
    match hay with
    | [] => []
    | c :: rest =>
      if needle.isPrefixOf (c :: rest) && !needle.isEmpty then
        repl ++ replaceRunAux needle repl fuel ((c :: rest).drop needle.length)
      else c :: replaceRunAux needle repl fuel rest

/-- Python `s.replace(pat, repl)`: the fuel (one unit and at least one
consumed character per step) only bounds the recursion. -/
def pyReplace (s pat repl : String) : String :=
  String.mk (replaceRunAux pat.data repl.data s.data.length s.data)

/-- `alt_url`: `url.replace('https://', 'http://')` when the URL starts
with `https://`, else `url.replace('http://', 'https://')` (Python
`str.replace` substitutes every occurrence). -/
def altUrl (url : String) : String :=
  if pyStartsWith url "https://" then pyReplace url "https://" "http://"
  else pyReplace url "http://" "https://"

/-- The scheme-flip stage shared by the probe's failure paths: a HEAD of
`alt_url` when it differs from `url`, else immediate failure. -/
def flipProbe (net : Network) (url : String) : Bool × String :=
  let alt := altUrl url
  if alt ≠ url then
    match net.head alt with
    | some code => if code < 400 then (true, alt) else (false, url)
    | none => (false, url)
  else (false, url)

/-- `check_link_active(url)` (cache-miss path): HEAD; on a
`RequestException` only, a streamed GET; then the scheme-flip HEAD. -/
def check_link_active (net : Network) (url : String) : Bool × String :=
  match net.head url with
  | some code =>
    if code < 400 then (true, url) else flipProbe net url
  | none =>
    match net.get url with
    | some code => if code < 400 then (true, url) else flipProbe net url
    | none => flipProbe net url

/-- Modelled from the claim's words (C2 as stated): the same chain, but
with the full-content probe fired on "any transport error **or failure**"
of the header probe — i.e. also when HEAD completes with status ≥ 400. -/
def checkLinkActiveClaimed (net : Network) (url : String) : Bool × String :=
  let headOk : Bool := match net.head url with
    | some code => code < 400
    | none => false
  if headOk then (true, url)
  else
    match net.get url with
    | some code => if code < 400 then (true, url) else flipProbe net url
    | none => flipProbe net url

/-- Modelled from the amended claim's words: an ordered strategy list,
short-circuiting at the first success, where the full-content probe is
attempted only when the header probe raised a transport error. -/
def checkLinkActiveAmended (net : Network) (url : String) : Bool × String :=
  let step1 : Option (Bool × String) :=
    match net.head url with
    | some code => if code < 400 then some (true, url) else none
    | none => none
  let step2 : Option (Bool × String) :=
    match net.head url with
    | none =>
      match net.get url with
      | some code => if code < 400 then some (true, url) else none
      | none => none
    | some _ => none
  let step3 : Option (Bool × String) :=
    let alt := altUrl url
    if alt ≠ url then
      match net.head alt with
      | some code => if code < 400 then some (true, alt) else none
      | none => none
    else none
  (([step1, step2, step3].foldr
      (fun o acc => match o with | some r => some r | none => acc) none)).getD
    (false, url)

/-! ## Validation stage -/

/-- The flattened `(group, channel)` worklist `filter_active_channels`
submits to the pool. -/
def allPairs (st : CollectorState) : List (String × Channel) :=
  st.channels.flatMap (fun gc => gc.2.map (fun c => (gc.1, c)))

/-- A record that probed active: URL rewritten to the resolved URL,
status set. -/
def rewriteActive (net : Network) (c : Channel) : Channel :=
  { c with url := (check_link_active net c.url).2, status := CStatus.active }

/-- `filter_active_channels()`: when `check_links` is set, rebuild the
store from the records whose probe succeeded (each rewritten and marked
active, re-grouped under its original group key); otherwise return at
once.  Probe results are collected here in submission order; the thread
pool's completion order only permutes arrival, which the claims state up
to permutation. -/
def filter_active_channels (net : Network) (check_links : Bool)
    (st : CollectorState) : CollectorState :=
  if check_links then
    let active := (allPairs st).foldl
      (fun acc p =>
        if (check_link_active net p.2.url).1 then
          addToGroup acc p.1 (rewriteActive net p.2)
        else acc)
      []
    { st with channels := active }
  else st

/-! ## Source routing and exit status -/

/-- Where `process_sources` sends one fetched source. -/
inductive Route where
  | html
  | json
  | m3u
  deriving DecidableEq, Repr

/-- The routing conditional of `process_sources`: `url.endswith('.html')
or 'html' in url.lower()`, then `url.endswith('.json') or 'json' in
content[:100].lower()`, else the playlist parser. -/
def classify_source (url content : String) : Route :=
  if pyEndsWith url ".html" || pyContains (pyLower url) "html" then Route.html
  else if pyEndsWith url ".json" || pyContains (pyLower (pyTake content 100)) "json" then
    Route.json
  else Route.m3u

/-- Modelled from the claim's words (C5 as stated): a URL merely
*containing* "json" is also routed to the JSON parser.  The claim's
"first 100 characters look like JSON" is rendered as the code's own
content test, the only JSON-shape test present. -/
def classifySourceClaimed (url content : String) : Route :=
  if pyEndsWith url "html" || pyContains (pyLower url) "html" then Route.html
  else if pyEndsWith url "json" || pyContains (pyLower url) "json"
      || pyContains (pyLower (pyTake content 100)) "json" then
    Route.json
  else Route.m3u

/-- `sum(len(ch) for ch in collector.channels.values())`. -/
def totalChannels (st : CollectorState) : Nat :=
  (allChannels st).length

/-- The exit status `main` reaches after exporting: `sys.exit(1)` when the
total channel count is zero, else the interpreter's normal exit 0. -/
def mainExitCode (st : CollectorState) : Nat :=
  if totalChannels st = 0 then 1 else 0

/-- Split at every comma (Python `s.split(',')`). -/
def splitOnComma : List Char → List (List Char)
  | [] => [[]]
  | c :: rest =>
    let r := splitOnComma rest
    if c = ',' then [] :: r
    else
      match r with
      | [] => [[c]]
      | h :: t => (c :: h) :: t

/-- Modelled from the spec's words for C4 as stated: the free-text segment
of a metadata line after the *final* comma (none when the line has no
comma, or nothing follows the last one). -/
def finalCommaSegment (s : String) : Option String :=
  let parts := splitOnComma s.data
  if parts.length ≥ 2 then
    match parts.getLast? with
    | some last => if last = [] then none else some (String.mk last)
    | none => none
  else none

/-- The first-comma capture written independently of the parser (for the
amended C4): everything after the first comma, when non-empty. -/
def firstCommaSegment (s : String) : Option String :=
  match s.data.dropWhile (· ≠ ',') with
  | [] => none
  | _ :: rest => if rest = [] then none else some (String.mk rest)

/-! ## Helper lemmas -/

theorem flatChans_nil : flatChans [] = [] := rfl

theorem flatChans_cons (p : String × List Channel) (rest : List (String × List Channel)) :
    flatChans (p :: rest) = p.2 ++ flatChans rest := by
  simp [flatChans]

/-- Appending a record to its group permutes, at the record level, to
appending it at the very end of the flattened store. -/
theorem flatChans_addToGroup_perm (chs : List (String × List Channel))
    (g : String) (c : Channel) :
    (flatChans (addToGroup chs g c)).Perm (flatChans chs ++ [c]) := by
  induction chs with
  | nil => simp [addToGroup, flatChans]
  | cons p rest ih =>
    obtain ⟨g', cs⟩ := p
    by_cases hg : g' = g
    · simp only [addToGroup, if_pos hg, flatChans_cons, List.append_assoc]
      exact List.Perm.append_left cs (List.perm_append_comm)
    · simp only [addToGroup, if_neg hg, flatChans_cons, List.append_assoc]
      exact List.Perm.append_left cs ih

theorem mem_flatChans_addToGroup {chs : List (String × List Channel)}
    {g : String} {c x : Channel} :
    x ∈ flatChans (addToGroup chs g c) ↔ x ∈ flatChans chs ∨ x = c := by
  rw [(flatChans_addToGroup_perm chs g c).mem_iff]
  simp

theorem isStreamLine_ne_empty {s : String} (h : isStreamLine s = true) : s ≠ "" := by
  intro he
  subst he
  have : isStreamLine "" = false := by decide
  rw [this] at h
  cases h

/-- A list with head `a` has no prefix starting with a different head. -/
theorem isPrefixOf_head_ne {a b : Char} {as bs l : List Char} (hab : b ≠ a)
    (h : List.isPrefixOf (a :: as) l = true) :
    List.isPrefixOf (b :: bs) l = false := by
  cases l with
  | nil => simp [List.isPrefixOf] at h
  | cons c t =>
    simp only [List.isPrefixOf, Bool.and_eq_true, beq_iff_eq] at h
    obtain ⟨hac, -⟩ := h
    subst hac
    have hba : (b == a) = false := beq_eq_false_iff_ne.mpr hab
    simp [List.isPrefixOf, hba]

/-- A stream-URL line is not a metadata line. -/
theorem streamLine_not_extinf {s : String} (h : isStreamLine s = true) :
    pyStartsWith s "#EXTINF:" = false := by
  have e1 : ("http://" : String).data = 'h' :: "ttp://".data := rfl
  have e2 : ("https://" : String).data = 'h' :: "ttps://".data := rfl
  have e3 : ("rtmp://" : String).data = 'r' :: "tmp://".data := rfl
  have e4 : ("rtsp://" : String).data = 'r' :: "tsp://".data := rfl
  have e5 : ("#EXTINF:" : String).data = '#' :: "EXTINF:".data := rfl
  unfold isStreamLine pyStartsWith at h
  unfold pyStartsWith
  rw [e5]
  rcases Bool.or_eq_true_iff.mp h with h' | h4
  · rcases Bool.or_eq_true_iff.mp h' with h'' | h3
    · rcases Bool.or_eq_true_iff.mp h'' with h1 | h2
      · rw [e1] at h1
        exact isPrefixOf_head_ne (by decide) h1
      · rw [e2] at h2
        exact isPrefixOf_head_ne (by decide) h2
    · rw [e3] at h3
      exact isPrefixOf_head_ne (by decide) h3
  · rw [e4] at h4
    exact isPrefixOf_head_ne (by decide) h4

/-! ## The deduplication invariant (C1) -/

/-- Every stored record has a non-empty URL registered in the seen set,
and no two stored records share a URL. -/
def StoreInv (st : CollectorState) : Prop :=
  (∀ c ∈ allChannels st, c.url ≠ "" ∧ c.url ∈ st.seen_urls) ∧
  (allChannels st).Pairwise (fun a b => a.url ≠ b.url)

theorem storeInv_init : StoreInv initState := by
  constructor
  · intro c hc
    simp [allChannels, initState, flatChans] at hc
  · simp [allChannels, initState, flatChans]

/-- The guarded insertion step (unseen, non-empty URL; the URL joins the
seen set in the same step) preserves the invariant. -/
theorem storeInv_insert {st : CollectorState} {g : String} {c : Channel}
    (h : StoreInv st) (hne : c.url ≠ "") (hseen : c.url ∉ st.seen_urls) :
    StoreInv ⟨addToGroup st.channels g c, c.url :: st.seen_urls⟩ := by
  obtain ⟨h1, h2⟩ := h
  have hperm := flatChans_addToGroup_perm st.channels g c
  constructor
  · intro x hx
    have hx' : x ∈ flatChans st.channels ++ [c] := hperm.mem_iff.mp hx
    rcases List.mem_append.mp hx' with hm | hm
    · obtain ⟨hu, hs⟩ := h1 x hm
      exact ⟨hu, List.mem_cons_of_mem _ hs⟩
    · have : x = c := by simpa using hm
      subst this
      exact ⟨hne, List.mem_cons_self _ _⟩
  · refine (hperm.pairwise_iff (fun hab => Ne.symm hab)).mpr ?_
    refine List.pairwise_append.mpr ⟨h2, List.pairwise_singleton _ _, ?_⟩
    intro a ha b hb
    have hb' : b = c := by simpa using hb
    subst hb'
    intro hurl
    exact hseen (hurl ▸ (h1 a ha).2)

/-- The playlist parser preserves the invariant from any pending state. -/
theorem parseM3UGo_inv (src now : String) (lines : List String) :
    ∀ cc st, StoreInv st → StoreInv (parseM3UGo src now lines cc st) := by
  induction lines with
  | nil =>
    intro cc st h
    simpa [parseM3UGo] using h
  | cons line rest ih =>
    intro cc st h
    simp only [parseM3UGo]
    by_cases hext : pyStartsWith (pyStrip line) "#EXTINF:" = true
    · simp only [hext, if_true]
      exact ih _ _ h
    · simp only [Bool.not_eq_true] at hext
      simp only [hext, Bool.false_eq_true, if_false]
      by_cases hstr : isStreamLine (pyStrip line) = true
      · simp only [hstr, if_true]
        cases cc with
        | none => exact ih _ _ h
        | some c =>
          by_cases hmem : pyStrip line ∈ st.seen_urls
          · simp only [if_pos hmem]
            exact ih _ _ h
          · simp only [if_neg hmem]
            refine ih _ _ ?_
            exact storeInv_insert h (isStreamLine_ne_empty hstr) hmem
      · simp only [Bool.not_eq_true] at hstr
        simp only [hstr, Bool.false_eq_true, if_false]
        exact ih _ _ h

theorem parse_m3u_content_inv (lines : List String) (src now : String)
    (st : CollectorState) (h : StoreInv st) :
    StoreInv (parse_m3u_content lines src now st) :=
  parseM3UGo_inv src now lines none st h

theorem natDecimalAux_succ_ne_nil (fuel n : Nat) : natDecimalAux (fuel + 1) n ≠ [] := by
  rw [natDecimalAux]
  split
  · simp
  · simp

theorem natDecimal_ne_empty (n : Nat) : natDecimal n ≠ "" := by
  intro he
  rw [String.ext_iff] at he
  exact natDecimalAux_succ_ne_nil n n he

/-- A truthy JSON value renders to a non-empty string. -/
theorem pyTruthy_pyStr_ne_empty {v : JValue} (h : pyTruthy v = true) :
    pyStr v ≠ "" := by
  cases v with
  | jstr s =>
    simp only [pyTruthy, Bool.not_eq_true'] at h
    simp only [pyStr]
    intro he
    rw [he] at h
    simp [String.isEmpty] at h
  | jnum n =>
    simp only [pyStr, intDecimal]
    split
    · intro he
      rw [String.ext_iff] at he
      exact List.cons_ne_nil _ _ he
    · exact natDecimal_ne_empty _
  | jbool b =>
    cases b with
    | true => simp [pyStr]
    | false => simp [pyTruthy] at h
  | jnull => simp [pyTruthy] at h
  | jarr l => simp [pyStr]
  | jobj l => simp [pyStr]

/-- The JSON-catalog parser preserves the invariant. -/
theorem parse_json_content_inv (data : JValue) (src now : String) :
    ∀ st, StoreInv st → StoreInv (parse_json_content data src now st) := by
  cases data with
  | jarr items =>
    induction items with
    | nil =>
      intro st h
      simpa [parse_json_content] using h
    | cons item rest ih =>
      intro st h
      have hstep : StoreInv (parse_json_content (JValue.jarr [item]) src now st) := by
        cases item with
        | jobj fields =>
          simp only [parse_json_content, List.foldl]
          cases hurl : List.lookup "url" fields with
          | none => exact h
          | some urlVal =>
            by_cases hc : pyTruthy urlVal = true ∧ pyStr urlVal ∉ st.seen_urls
            · simp only [if_pos hc]
              have hchu : (mkJsonChannel fields src now).url = pyStr urlVal := by
                simp [mkJsonChannel, hurl]
              refine ?_
              have := storeInv_insert (g := (mkJsonChannel fields src now).group) h
                (hchu ▸ pyTruthy_pyStr_ne_empty hc.1) (hchu ▸ hc.2)
              simpa [hchu] using this
            · simp only [if_neg hc]
              exact h
        | jstr s => simpa [parse_json_content] using h
        | jnum n => simpa [parse_json_content] using h
        | jbool b => simpa [parse_json_content] using h
        | jnull => simpa [parse_json_content] using h
        | jarr l => simpa [parse_json_content] using h
      have hrest := ih _ hstep
      simpa [parse_json_content, List.foldl] using hrest
  | jstr s => intro st h; simpa [parse_json_content] using h
  | jnum n => intro st h; simpa [parse_json_content] using h
  | jbool b => intro st h; simpa [parse_json_content] using h
  | jnull => intro st h; simpa [parse_json_content] using h
  | jobj l => intro st h; simpa [parse_json_content] using h

/-- Any run of the ingestion phase preserves the invariant. -/
theorem runIngest_inv (ops : List IngestOp) :
    ∀ st, StoreInv st → StoreInv (runIngest ops st) := by
  induction ops with
  | nil => intro st h; simpa [runIngest] using h
  | cons op rest ih =>
    intro st h
    cases op with
    | m3u lines src now =>
      exact ih _ (parse_m3u_content_inv lines src now st h)
    | json data src now =>
      exact ih _ (parse_json_content_inv data src now st h)

/-- C1: over any sequence of `parse_m3u_content` / `parse_json_content`
invocations from the cleared state, no two admitted records share a URL,
and every admitted record's URL is non-empty and registered in the
seen-URL set (it was added there in the same insertion step). -/
theorem c1_ingest_unique_urls (ops : List IngestOp) :
    ((allChannels (runIngest ops initState)).Pairwise fun a b => a.url ≠ b.url) ∧
    ∀ c ∈ allChannels (runIngest ops initState),
      c.url ≠ "" ∧ c.url ∈ (runIngest ops initState).seen_urls := by
  have h := runIngest_inv ops initState storeInv_init
  exact ⟨h.2, h.1⟩

/-! ## The probe chain (C2) -/

/-- C2 (amended): the probe tries, in order and short-circuiting on first
success, (1) a header probe succeeding below status 400; (2) only when
step 1 raised a transport error — not when it completed with status ≥ 400 —
a streamed full-content probe with the same threshold; (3) a header probe
of the scheme-flipped URL when it differs; and yields `(inactive, original
URL)` when all fail. -/
theorem c2_probe_chain (net : Network) (url : String) :
    check_link_active net url = checkLinkActiveAmended net url := by
  unfold check_link_active checkLinkActiveAmended flipProbe
  simp only [List.foldr]
  cases h1 : net.head url <;>
    cases h2 : net.get url <;>
    cases h3 : net.head (altUrl url) <;>
    simp_all <;>
    split_ifs <;>
    simp_all

/-- The network of the C2 counterexample: every HEAD completes with 404,
every GET completes with 200. -/
def c2Net : Network := ⟨fun _ => some 404, fun _ => some 200⟩

/-- C2 (counterexample): when the header probe completes with status 404
and the full-content probe would return 200, the claimed chain reports the
URL active via step 2, but the code skips the full-content probe (it runs
only under a transport error) and reports the URL inactive. -/
theorem c2_counterexample :
    checkLinkActiveClaimed c2Net "http://u" = (true, "http://u") ∧
    check_link_active c2Net "http://u" = (false, "http://u") := by
  constructor
  · rfl
  · rfl

/-! ## The validation stage (C3) -/

theorem flatChans_filter_fold (net : Network) (l : List (String × Channel)) :
    ∀ acc : List (String × List Channel),
      (flatChans (l.foldl
        (fun acc p =>
          if (check_link_active net p.2.url).1 then
            addToGroup acc p.1 (rewriteActive net p.2)
          else acc) acc)).Perm
      (flatChans acc ++
        ((l.filter fun p => (check_link_active net p.2.url).1).map
          fun p => rewriteActive net p.2)) := by
  induction l with
  | nil => intro acc; simp
  | cons p rest ih =>
    intro acc
    by_cases hp : (check_link_active net p.2.url).1 = true
    · simp only [List.foldl_cons, List.filter_cons, hp, if_true, List.map_cons]
      refine (ih _).trans ?_
      have h1 := flatChans_addToGroup_perm acc p.1 (rewriteActive net p.2)
      refine (h1.append_right _).trans ?_
      rw [List.append_assoc]
      exact List.Perm.refl _
    · simp only [Bool.not_eq_true] at hp
      simp only [List.foldl_cons, List.filter_cons, hp, Bool.false_eq_true, if_false]
      exact ih _

/-- C3: with checking enabled the resulting store holds exactly (up to
grouping order) the records whose probe succeeded, each rewritten to the
resolved URL and marked active; records whose probe failed are absent.
With checking disabled the store is returned unchanged (in particular no
record gains a validation status). -/
theorem c3_filter_active (net : Network) (st : CollectorState) :
    ((allChannels (filter_active_channels net true st)).Perm
      (((allPairs st).filter fun p => (check_link_active net p.2.url).1).map
        fun p => rewriteActive net p.2)) ∧
    (∀ c ∈ allChannels (filter_active_channels net true st),
      c.status = CStatus.active) ∧
    filter_active_channels net false st = st := by
  have hperm : (allChannels (filter_active_channels net true st)).Perm
      (((allPairs st).filter fun p => (check_link_active net p.2.url).1).map
        fun p => rewriteActive net p.2) := by
    have h := flatChans_filter_fold net (allPairs st) []
    simpa [filter_active_channels, allChannels] using h
  refine ⟨hperm, ?_, by simp [filter_active_channels]⟩
  intro c hc
  have hm := hperm.mem_iff.mp hc
  rcases List.mem_map.mp hm with ⟨p, -, hrw⟩
  rw [← hrw]
  rfl

/-! ## The metadata-line name (C4) -/

theorem pyStrip_no_newline {s : String} (h : '\n' ∉ s.data) :
    '\n' ∉ (pyStrip s).data := by
  intro hm
  apply h
  unfold pyStrip at hm
  simp only [List.mem_reverse] at hm
  have h1 := (List.dropWhile_sublist (l := (s.data.dropWhile pyIsSpace).reverse)
    (p := pyIsSpace)).mem hm
  rw [List.mem_reverse] at h1
  exact (List.dropWhile_sublist (l := s.data) (p := pyIsSpace)).mem h1

/-- On newline-free input the `,(.+)$` capture is exactly "everything
after the first comma, when non-empty". -/
theorem commaCaptureAux_no_newline {l : List Char} (h : '\n' ∉ l) :
    commaCaptureAux l =
      (match l.dropWhile (fun c => c ≠ ',') with
        | [] => none
        | _ :: rest => if rest = [] then none else some rest) := by
  induction l with
  | nil => simp [commaCaptureAux]
  | cons c cs ih =>
    have hcs : '\n' ∉ cs := fun hm => h (List.mem_cons_of_mem _ hm)
    by_cases hcomma : c = ','
    · subst hcomma
      cases cs with
      | nil => rfl
      | cons d ds =>
        have hL : commaCaptureAux (',' :: d :: ds) = some (d :: ds) := by
          rw [commaCaptureAux, if_pos ⟨rfl, List.cons_ne_nil d ds, hcs⟩]
        rw [hL]
        rfl
    · have hL : commaCaptureAux (c :: cs) = commaCaptureAux cs := by
        rw [commaCaptureAux, if_neg]
        intro hcond
        exact hcomma hcond.1
      have hdrop : List.dropWhile (fun c => c ≠ ',') (c :: cs) =
          List.dropWhile (fun c => c ≠ ',') cs := by
        simp [List.dropWhile_cons, hcomma]
      rw [hL, hdrop]
      exact ih hcs

/-- On a newline-free metadata line the parser's display name is the
whitespace-collapsed, stripped text after the first comma (default
`"Unknown Channel"`). -/
theorem extinfName_no_newline {l : String} (h : '\n' ∉ l.data) :
    extinfName l =
      pyStrip (collapseWs (((firstCommaSegment l).map pyStrip).getD "Unknown Channel")) := by
  unfold extinfName commaCapture firstCommaSegment
  rw [commaCaptureAux_no_newline h]
  cases hd : l.data.dropWhile (fun c => c ≠ ',') with
  | nil => simp
  | cons x rest =>
    by_cases hr : rest = []
    · simp [hr]
    · simp [hr]

/-- C4 (amended): a newline-free metadata line immediately followed by a
URL line with a fresh URL yields exactly one channel record, whose name is
the free-text segment after the *first* comma of the metadata line (not
the final one), whitespace-collapsed and stripped, defaulting to
`"Unknown Channel"`. -/
theorem c4_pair_one_record (st : CollectorState) (e u src now : String)
    (he : pyStartsWith (pyStrip e) "#EXTINF:" = true)
    (hu : isStreamLine (pyStrip u) = true)
    (hnl : '\n' ∉ e.data)
    (hfresh : pyStrip u ∉ st.seen_urls) :
    ∃ ch : Channel,
      parse_m3u_content [e, u] src now st =
        ⟨addToGroup st.channels ch.group ch, pyStrip u :: st.seen_urls⟩ ∧
      ch.url = pyStrip u ∧ ch.status = CStatus.unknown ∧
      ch.name = pyStrip (collapseWs
        (((firstCommaSegment (pyStrip e)).map pyStrip).getD "Unknown Channel")) := by
  refine ⟨{ mkExtinfChannel (pyStrip e) src now with url := pyStrip u }, ?_, rfl, rfl, ?_⟩
  · unfold parse_m3u_content
    simp only [parseM3UGo, he, if_true]
    have hne := streamLine_not_extinf hu
    simp only [hne, Bool.false_eq_true, if_false, hu, if_true]
    simp only [if_neg hfresh]
  · show (mkExtinfChannel (pyStrip e) src now).name = _
    have hnl' := pyStrip_no_newline hnl
    simpa [mkExtinfChannel] using extinfName_no_newline hnl'

/-- C4 witness: a concrete metadata/URL pair from the empty store. -/
theorem c4_pair_one_record_witness :
    ∃ ch : Channel,
      parse_m3u_content ["#EXTINF:-1 group-title=\"News\",  My   Channel ", "http://s/1"]
          "src" "t" initState =
        ⟨addToGroup initState.channels ch.group ch,
          pyStrip "http://s/1" :: initState.seen_urls⟩ ∧
      ch.url = pyStrip "http://s/1" ∧ ch.status = CStatus.unknown ∧
      ch.name = pyStrip (collapseWs
        (((firstCommaSegment (pyStrip "#EXTINF:-1 group-title=\"News\",  My   Channel ")).map
          pyStrip).getD "Unknown Channel")) :=
  c4_pair_one_record initState "#EXTINF:-1 group-title=\"News\",  My   Channel " "http://s/1"
    "src" "t" (by decide) (by decide) (by decide) (by decide)

/-- C4 (counterexample): on `#EXTINF:-1,A,B` the emitted record is named
`"A,B"`, the text after the first comma, while the text after the final
comma is `"B"`. -/
theorem c4_counterexample :
    ((allChannels (parse_m3u_content ["#EXTINF:-1,A,B", "http://x"] "s" "t" initState)).map
      Channel.name) = ["A,B"] ∧
    finalCommaSegment "#EXTINF:-1,A,B" = some "B" ∧
    collapseWs (pyStrip "B") = "B" ∧
    ("A,B" : String) ≠ "B" := by
  refine ⟨by decide, by decide, by decide, by decide⟩

/-- Up to the next metadata line, a pending channel that is never consumed
by a stream line is irrelevant: any two pending states give the same run. -/
theorem parseM3UGo_pending_overwritten (src now : String) (mid : List String)
    (l2 : String) (rest : List String)
    (h2 : pyStartsWith (pyStrip l2) "#EXTINF:" = true)
    (hmid : ∀ m ∈ mid, isStreamLine (pyStrip m) = false) :
    ∀ cc cc' st,
      parseM3UGo src now (mid ++ l2 :: rest) cc st =
        parseM3UGo src now (mid ++ l2 :: rest) cc' st := by
  induction mid with
  | nil =>
    intro cc cc' st
    simp only [List.nil_append, parseM3UGo, h2, if_true]
  | cons m mid' ih =>
    intro cc cc' st
    have hm := hmid m (List.mem_cons_self _ _)
    have hmid' : ∀ x ∈ mid', isStreamLine (pyStrip x) = false :=
      fun x hx => hmid x (List.mem_cons_of_mem _ hx)
    simp only [List.cons_append, parseM3UGo]
    by_cases hext : pyStartsWith (pyStrip m) "#EXTINF:" = true
    · simp only [hext, if_true]
    · simp only [Bool.not_eq_true] at hext
      simp only [hext, Bool.false_eq_true, if_false, hm]
      exact ih hmid' cc cc' st

/-- C8: a metadata line followed — with no stream-URL line in between —
by another metadata line contributes nothing: parsing is as if the first
metadata line were absent. -/
theorem c8_extinf_discarded (l1 : String) (mid : List String) (l2 : String)
    (rest : List String) (src now : String) (st : CollectorState)
    (h1 : pyStartsWith (pyStrip l1) "#EXTINF:" = true)
    (h2 : pyStartsWith (pyStrip l2) "#EXTINF:" = true)
    (hmid : ∀ m ∈ mid, isStreamLine (pyStrip m) = false) :
    parse_m3u_content (l1 :: (mid ++ l2 :: rest)) src now st =
      parse_m3u_content (mid ++ l2 :: rest) src now st := by
  unfold parse_m3u_content
  conv_lhs => rw [parseM3UGo]
  simp only [h1, if_true]
  exact parseM3UGo_pending_overwritten src now mid l2 rest h2 hmid _ _ st

/-- C8 witness: two metadata lines separated by a comment and a blank
line, before a URL line. -/
theorem c8_extinf_discarded_witness :
    parse_m3u_content ["#EXTINF:-1,Dropped", "# note", "", "#EXTINF:-1,Kept", "http://u"]
        "s" "t" initState =
      parse_m3u_content ["# note", "", "#EXTINF:-1,Kept", "http://u"] "s" "t" initState :=
  c8_extinf_discarded "#EXTINF:-1,Dropped" ["# note", ""] "#EXTINF:-1,Kept" ["http://u"]
    "s" "t" initState (by decide) (by decide) (by decide)

/-- C10: a stream-URL line with no pending metadata line is ignored —
no record is emitted and the store, the seen-URL set (and the absent
pending state) are all unchanged. -/
theorem c10_orphan_url_ignored (l : String) (rest : List String)
    (src now : String) (st : CollectorState)
    (h : isStreamLine (pyStrip l) = true) :
    parseM3UGo src now (l :: rest) none st = parseM3UGo src now rest none st := by
  rw [parseM3UGo]
  simp only [streamLine_not_extinf h, Bool.false_eq_true, if_false, h, if_true]

/-- C10 witness: a leading URL line from the empty pending state. -/
theorem c10_orphan_url_ignored_witness :
    parseM3UGo "s" "t" ["http://orphan", "#EXTINF:-1,A"] none initState =
      parseM3UGo "s" "t" ["#EXTINF:-1,A"] none initState :=
  c10_orphan_url_ignored "http://orphan" ["#EXTINF:-1,A"] "s" "t" initState (by decide)

/-! ## Routing (C5) -/

/-- C5 (amended): the routing is purely syntactic, but the JSON test is
`url.endswith('.json')` — a URL merely containing "json" is not enough —
together with a case-insensitive search for "json" in the content's first
100 characters; the HTML test is `url.endswith('.html')` or a
case-insensitive "html" in the URL; everything else goes to the playlist
parser. -/
theorem c5_routing (url content : String) :
    (classify_source url content = Route.html ↔
      (pyEndsWith url ".html" || pyContains (pyLower url) "html") = true) ∧
    (classify_source url content = Route.json ↔
      ((!(pyEndsWith url ".html" || pyContains (pyLower url) "html")) &&
        (pyEndsWith url ".json" || pyContains (pyLower (pyTake content 100)) "json")) = true) ∧
    (classify_source url content = Route.m3u ↔
      ((!(pyEndsWith url ".html" || pyContains (pyLower url) "html")) &&
        (!(pyEndsWith url ".json" || pyContains (pyLower (pyTake content 100)) "json"))) = true) := by
  unfold classify_source
  cases h1 : (pyEndsWith url ".html" || pyContains (pyLower url) "html") <;>
    cases h2 : (pyEndsWith url ".json" || pyContains (pyLower (pyTake content 100)) "json") <;>
    simp [h1, h2]

/-- C5 (counterexample): a source URL containing "json" (but not ending
in ".json") whose content is a playlist is routed to the playlist parser
by the code, while the claim routes it to the JSON parser. -/
theorem c5_counterexample :
    classify_source "http://a/myjson" "#EXTM3U" = Route.m3u ∧
    classifySourceClaimed "http://a/myjson" "#EXTM3U" = Route.json := by
  exact ⟨by decide, by decide⟩

/-! ## Channel identity (C6) -/

/-- Every record the playlist parser adds hashes its display name with the
*source* URL. -/
theorem parseM3UGo_id (src now : String) (lines : List String) :
    ∀ cc st c,
      (∀ c0, cc = some c0 → c0.id = generate_channel_id c0.name src) →
      c ∈ allChannels (parseM3UGo src now lines cc st) →
      c ∈ allChannels st ∨ c.id = generate_channel_id c.name src := by
  induction lines with
  | nil =>
    intro cc st c hcc hm
    left
    simpa [parseM3UGo] using hm
  | cons line rest ih =>
    intro cc st c hcc hm
    simp only [parseM3UGo] at hm
    by_cases hext : pyStartsWith (pyStrip line) "#EXTINF:" = true
    · simp only [hext, if_true] at hm
      refine ih _ _ _ ?_ hm
      intro c0 h0
      have : c0 = mkExtinfChannel (pyStrip line) src now := by
        injection h0.symm
      subst this
      rfl
    · simp only [Bool.not_eq_true] at hext
      simp only [hext, Bool.false_eq_true, if_false] at hm
      by_cases hstr : isStreamLine (pyStrip line) = true
      · simp only [hstr, if_true] at hm
        cases cc with
        | none =>
          exact ih _ _ _ (by intro c0 h0; cases h0) hm
        | some c0 =>
          by_cases hmem : pyStrip line ∈ st.seen_urls
          · simp only [if_pos hmem] at hm
            exact ih _ _ _ (by intro c1 h1; cases h1) hm
          · simp only [if_neg hmem] at hm
            rcases ih _ _ _ (by intro c1 h1; cases h1) hm with hin | hid
            · rcases mem_flatChans_addToGroup.mp hin with hin' | heq
              · exact Or.inl hin'
              · right
                subst heq
                exact hcc c0 rfl
            · exact Or.inr hid
      · simp only [Bool.not_eq_true] at hstr
        simp only [hstr, Bool.false_eq_true, if_false] at hm
        exact ih _ _ _ hcc hm

/-- Every record the JSON parser adds hashes its display name with its own
playable URL. -/
theorem parse_json_content_id (data : JValue) (src now : String) :
    ∀ st c, c ∈ allChannels (parse_json_content data src now st) →
      c ∈ allChannels st ∨ c.id = generate_channel_id c.name c.url := by
  cases data with
  | jarr items =>
    induction items with
    | nil =>
      intro st c hm
      left
      simpa [parse_json_content] using hm
    | cons item rest ih =>
      intro st c hm
      have hm' : c ∈ allChannels (parse_json_content (JValue.jarr rest) src now
          (parse_json_content (JValue.jarr [item]) src now st)) := by
        simpa [parse_json_content, List.foldl] using hm
      rcases ih _ _ hm' with hin | hid
      · cases item with
        | jobj fields =>
          simp only [parse_json_content, List.foldl] at hin
          cases hurl : List.lookup "url" fields with
          | none =>
            simp only [hurl] at hin
            exact Or.inl hin
          | some urlVal =>
            simp only [hurl] at hin
            by_cases hc : pyTruthy urlVal = true ∧ pyStr urlVal ∉ st.seen_urls
            · rw [if_pos hc] at hin
              rcases mem_flatChans_addToGroup.mp hin with hin' | heq
              · exact Or.inl hin'
              · right
                subst heq
                rfl
            · rw [if_neg hc] at hin
              exact Or.inl hin
        | jstr s => exact Or.inl (by simpa [parse_json_content] using hin)
        | jnum n => exact Or.inl (by simpa [parse_json_content] using hin)
        | jbool b => exact Or.inl (by simpa [parse_json_content] using hin)
        | jnull => exact Or.inl (by simpa [parse_json_content] using hin)
        | jarr l => exact Or.inl (by simpa [parse_json_content] using hin)
      · exact Or.inr hid
  | jstr s => intro st c hm; exact Or.inl (by simpa [parse_json_content] using hm)
  | jnum n => intro st c hm; exact Or.inl (by simpa [parse_json_content] using hm)
  | jbool b => intro st c hm; exact Or.inl (by simpa [parse_json_content] using hm)
  | jnull => intro st c hm; exact Or.inl (by simpa [parse_json_content] using hm)
  | jobj l => intro st c hm; exact Or.inl (by simpa [parse_json_content] using hm)

/-- C6 (amended): channel identity is deterministic MD5 hashing, but the
two parsers feed it different inputs — the playlist parser hashes the name
with the source URL, the JSON parser hashes the name with the channel's
own playable URL. -/
theorem c6_id_derivation :
    (∀ lines src now st c, c ∈ allChannels (parse_m3u_content lines src now st) →
      c ∈ allChannels st ∨ c.id = generate_channel_id c.name src) ∧
    (∀ data src now st c, c ∈ allChannels (parse_json_content data src now st) →
      c ∈ allChannels st ∨ c.id = generate_channel_id c.name c.url) := by
  constructor
  · intro lines src now st c hm
    exact parseM3UGo_id src now lines none st c (by intro c0 h0; cases h0) hm
  · intro data src now st c hm
    exact parse_json_content_id data src now st c hm

/-- The C6 counterexample catalog: two objects with the same name from the
same source, differing only in their stream URL. -/
def c6Data : JValue :=
  JValue.jarr
    [JValue.jobj [("name", JValue.jstr "A"), ("url", JValue.jstr "http://u1")],
     JValue.jobj [("name", JValue.jstr "A"), ("url", JValue.jstr "http://u2")]]

/-- C6 (counterexample): the JSON parser emits two records with the same
name and the same source URL but distinct ids, because it hashes
name+channel URL rather than name+source URL. -/
theorem c6_counterexample :
    ((allChannels (parse_json_content c6Data "s" "t" initState)).map
      (fun c => (c.name, c.source))) = [("A", "s"), ("A", "s")] ∧
    ((allChannels (parse_json_content c6Data "s" "t" initState)).map Channel.id).Nodup := by
  exact ⟨by decide, by decide⟩

/-! ## Logo defaulting (C7) -/

/-- C7 (amended): the playlist parser substitutes the placeholder logo for
a missing *or empty* logo attribute; the JSON parser substitutes it only
when both logo keys are absent, and keeps an explicit empty-string
value. -/
theorem c7_logo_default :
    (∀ l src now : String,
      extinfLogoAttr l = none ∨ extinfLogoAttr l = some "" →
      (mkExtinfChannel l src now).logo = default_logo) ∧
    (∀ (fields : List (String × JValue)) (src now : String),
      List.lookup "img" fields = none → List.lookup "logo" fields = none →
      (mkJsonChannel fields src now).logo = default_logo) ∧
    (∀ (fields : List (String × JValue)) (src now : String),
      List.lookup "img" fields = none → List.lookup "logo" fields = some (JValue.jstr "") →
      (mkJsonChannel fields src now).logo = "") := by
  refine ⟨?_, ?_, ?_⟩
  · intro l src now h
    rcases h with h | h <;> simp [mkExtinfChannel, extinfLogo, h]
  · intro fields src now h1 h2
    simp [mkJsonChannel, jsonLogoVal, h1, h2, pyStr]
  · intro fields src now h1 h2
    simp [mkJsonChannel, jsonLogoVal, h1, h2, pyStr]

/-- The C7 counterexample catalog: one object with an explicit
empty-string logo. -/
def c7Data : JValue :=
  JValue.jarr
    [JValue.jobj [("name", JValue.jstr "A"), ("url", JValue.jstr "http://u"),
      ("logo", JValue.jstr "")]]

/-- C7 (counterexample): the JSON parser emits a record whose logo is the
empty string, not the default placeholder, when the catalog carries an
empty-string logo attribute. -/
theorem c7_counterexample :
    ((allChannels (parse_json_content c7Data "s" "t" initState)).map Channel.logo) = [""] ∧
    ("" : String) ≠ default_logo := by
  exact ⟨by decide, by decide⟩

/-! ## Exit status (C9) -/

/-- C9: the run exits with a non-zero status exactly when the final store
holds zero channels across all groups, and with zero when at least one
channel is present. -/
theorem c9_exit_status (st : CollectorState) :
    (mainExitCode st ≠ 0 ↔ totalChannels st = 0) ∧
    (totalChannels st ≠ 0 → mainExitCode st = 0) := by
  unfold mainExitCode
  by_cases h : totalChannels st = 0 <;> simp [h]

end AniX



